import Mathlib

/-!
# Verification of the email-notifier account monitoring engine

Shallow embedding of the Go account-monitoring engine: message-identity
construction, the include/exclude filter evaluator, folder resolution,
the per-account poll cycle executors (IMAP and POP3), and the persisted
notification-history store, together with proofs of the specified
properties.

Modelling conventions:
* Go strings are Lean `String`s; the `strings` package operations used by
  the code (`ToLower`, `EqualFold`, `Contains`, `HasPrefix`, `TrimPrefix`,
  `TrimSpace`, `Split` on `"\r\n"`, `ReplaceAll`, `Index`) are re-implemented
  below by structural recursion on `List Char` so that all definitions are
  executable and kernel-reducible.  `strings.EqualFold` is modelled as
  equality after per-character lowering (exact for the ASCII data the
  program handles).
* The Go map `notifiedEmails map[string]bool` is modelled as the list of
  its keys; map lookup is `List.contains`, insertion of an absent key is
  appending.  Go map iteration order is unspecified; the list order stands
  for one arbitrary iteration order.
* `time.Now().UnixNano()` is modelled by an explicit `now : Nat` argument
  threaded to the code that reads the clock.
* JSON marshalling of a `[]string` is modelled by its denotation, the list
  of strings itself; the history directory plus per-account file name is a
  key into a `FileSystem` map from file names to decoded contents.
* Network sessions are modelled by an explicit connection-outcome argument:
  each early-return failure path of the Go code (secret-store lookup, dial,
  TLS, login/auth, stat) is one constructor, and a successful session
  carries the snapshot of what the remote side would serve during the cycle.
-/

namespace EmailNotifier

/-! ## String primitives (model of Go `strings` operations) -/

/-- Model of `strings.ToLower` (per-character lowering). -/
def strToLower (s : String) : String :=
  String.mk (s.toList.map Char.toLower)

/-- Model of `strings.EqualFold`: case-insensitive equality. -/
def eqFold (a b : String) : Bool :=
  strToLower a == strToLower b

/-- Helper for `strings.Contains`: does `sub` occur inside the list? -/
def hasSubstring (sub : List Char) : List Char → Bool
  | [] => sub.isEmpty
  | c :: rest => sub.isPrefixOf (c :: rest) || hasSubstring sub rest

/-- Model of `strings.Contains s sub`. -/
def strContains (s sub : String) : Bool :=
  hasSubstring sub.toList s.toList

/-- Model of `strings.Split msg "\r\n"`: split on each occurrence of CRLF. -/
def splitCRLF : List Char → List (List Char)
  | [] => [[]]
  | '\r' :: '\n' :: rest => [] :: splitCRLF rest
  | c :: rest =>
    match splitCRLF rest with
    | line :: more => (c :: line) :: more
    | [] => [[c]]

/-- Model of `strings.TrimPrefix s pre`. -/
def trimPrefixL (s pre : List Char) : List Char :=
  if pre.isPrefixOf s then s.drop pre.length else s

/-- Model of `strings.TrimSpace` (leading/trailing whitespace removed). -/
def trimSpaceL (s : List Char) : List Char :=
  ((s.dropWhile Char.isWhitespace).reverse.dropWhile Char.isWhitespace).reverse

/-! ## Header parsing and address extraction -/

/-- Loop body of `extractHeader`: scan the CRLF-split lines for the first one
whose lowering starts with the lowered header name followed by `":"`; on a hit
return that line with the *original-case* header prefix trimmed (exactly as the
Go code does) and surrounding whitespace removed. -/
def findHeaderLine (headerLower headerOrig : List Char) : List (List Char) → List Char
  | [] => []
  | line :: rest =>
    if (headerLower ++ [':']).isPrefixOf (line.map Char.toLower) then
      trimSpaceL (trimPrefixL line (headerOrig ++ [':']))
    else
      findHeaderLine headerLower headerOrig rest

/-- Model of `extractHeader(msg, header)`: split the raw message on CRLF and
return the value of the first matching header line, `""` if none matches. -/
def extractHeader (msg header : String) : String :=
  String.mk (findHeaderLine (header.toList.map Char.toLower) header.toList (splitCRLF msg.toList))

/-- Model of `extractMessageID(msg)`: the `Message-ID` header when present,
otherwise the current wall-clock nanosecond count (`time.Now().UnixNano()`),
passed in as `now`. -/
def extractMessageID (msg : String) (now : Nat) : String :=
  let msgID := extractHeader msg "Message-ID"
  if msgID != "" then msgID else toString now

/-- Model of `extractEmailAddress(from)`: the text between the first `"<"` and
the next `">"`, falling back to the whitespace-trimmed input. -/
def extractEmailAddress (fromStr : String) : String :=
  let l := fromStr.toList
  match l.findIdx? (· == '<') with
  | some idx =>
    match (l.drop idx).findIdx? (· == '>') with
    | some endIdx => String.mk ((l.drop (idx + 1)).take (endIdx - 1))
    | none => String.mk (trimSpaceL l)
  | none => String.mk (trimSpaceL l)

/-- Model of `generateEmailID(folder, uid, messageID)` (IMAP identity builder).
The IMAP UID is a `uint32`; the function only formats it with `%d`, so it is
embedded as a `Nat`. -/
def generateEmailID (folder : String) (uid : Nat) (messageID : String) : String :=
  if messageID != "" then
    folder ++ "-" ++ toString uid ++ "-" ++ messageID
  else
    folder ++ "-" ++ toString uid

/-! ## Data model -/

/-- The fields of `imap.Address` read by the engine. -/
structure Address where
  MailboxName : String
  HostName : String
deriving DecidableEq, Repr

/-- The fields of `imap.Envelope` read by the engine. -/
structure Envelope where
  From : List Address
  Subject : String
  MessageId : String
deriving DecidableEq, Repr

/-- The configuration fields of `AccountConfig` that the monitoring engine
reads (connection parameters such as `Server`/`Port` live behind the
connection-outcome argument of the poll cycle executors). -/
structure AccountConfig where
  Email : String
  IncludeKeyword : List String
  ExcludeKeyword : List String
  IncludeEmail : List String
  ExcludeEmail : List String
  CheckHistory : Nat
  FolderMode : String
  IncludeFolders : List String
  ExcludeFolders : List String
deriving DecidableEq, Repr

/-- The sender address derived inside `applyFilters`:
`env.From[0].MailboxName + "@" + env.From[0].HostName` when the first address
has both parts, the empty string otherwise. -/
def envelopeSender (env : Envelope) : String :=
  match env.From with
  | addr :: _ =>
    if addr.MailboxName != "" && addr.HostName != "" then
      addr.MailboxName ++ "@" ++ addr.HostName
    else ""
  | [] => ""

/-- Model of `applyFilters(acc, env)` (IMAP filter evaluator). -/
def applyFilters (acc : AccountConfig) (env : Envelope) : Bool :=
  let senderEmail := envelopeSender env
  let subject := strToLower env.Subject
  if acc.ExcludeEmail.any (fun excludeEmail => eqFold senderEmail excludeEmail) then
    false
  else if acc.ExcludeKeyword.any (fun keyword => strContains subject (strToLower keyword)) then
    false
  else
    let hasIncludeFilters := !acc.IncludeEmail.isEmpty || !acc.IncludeKeyword.isEmpty
    if hasIncludeFilters then
      acc.IncludeEmail.any (fun includeEmail => eqFold senderEmail includeEmail) ||
        acc.IncludeKeyword.any (fun keyword => strContains subject (strToLower keyword))
    else
      true

/-- Model of `applyFiltersPOP3(acc, from, subject)` (POP3 filter evaluator). -/
def applyFiltersPOP3 (acc : AccountConfig) (fromStr subject : String) : Bool :=
  let senderEmail := extractEmailAddress fromStr
  let subjectLower := strToLower subject
  if acc.ExcludeEmail.any (fun excludeEmail => eqFold senderEmail excludeEmail) then
    false
  else if acc.ExcludeKeyword.any (fun keyword => strContains subjectLower (strToLower keyword)) then
    false
  else
    let hasIncludeFilters := !acc.IncludeEmail.isEmpty || !acc.IncludeKeyword.isEmpty
    if hasIncludeFilters then
      acc.IncludeEmail.any (fun includeEmail => eqFold senderEmail includeEmail) ||
        acc.IncludeKeyword.any (fun keyword => strContains subjectLower (strToLower keyword))
    else
      true

/-! ## Remote snapshot, folder selection -/

/-- Snapshot of one IMAP mailbox as the poll cycle observes it: its name (from
`c.List`), the `Messages` and `Unseen` counts reported by `c.Select`, and the
messages delivered by `c.Search` (unseen criteria) followed by `c.Fetch`
(envelope + UID).  A message whose envelope the fetch did not supply carries
`none`. -/
structure IMAPMessage where
  uid : Nat
  envelope : Option Envelope
deriving DecidableEq, Repr

structure MailboxData where
  name : String
  totalMessages : Nat
  unseen : Nat
  unseenMsgs : List IMAPMessage
deriving DecidableEq, Repr

/-- Model of `listFolders(c)`: the names reported by the remote listing. -/
def listFolders (remote : List MailboxData) : List String :=
  remote.map (·.name)

/-- Model of `getFoldersToCheck(acc, c)`. -/
def getFoldersToCheck (acc : AccountConfig) (remote : List MailboxData) : List String :=
  match acc.FolderMode with
  | "include" => acc.IncludeFolders
  | "exclude" =>
    let allFolders := listFolders remote
    allFolders.filter (fun f => !(acc.ExcludeFolders.contains f))
  | _ => listFolders remote

/-! ## Account runtime state and poll cycle executors -/

/-- The per-account mutable runtime state touched by a poll cycle, plus the
persisted history file content (the decoded JSON string array;
`historyFile` is what `saveNotifiedEmails` last wrote for this account). -/
structure AccountState where
  notifiedEmails : List String
  lastCheckTime : Nat
  unreadCount : Nat
  historyFile : List String
deriving DecidableEq, Repr

/-- Outcome of one poll cycle: the account state afterwards, how many
notifications fired, and whether the cycle returned an error. -/
structure CycleResult where
  state : AccountState
  fired : Nat
  err : Bool
deriving DecidableEq, Repr

/-- Connection outcome for `connectToIMAP`: each early-return failure of the
Go code (keyring lookup, `DialTLS`, `Login`) or a live session serving the
given snapshot. -/
inductive IMAPConn where
  | passwordError
  | dialError
  | loginError
  | ok (remote : List MailboxData)
deriving DecidableEq, Repr

/-- The per-message body of the IMAP fetch loop: guard
`msg.Envelope != nil && msg.Uid > 0`, build the identity, skip if already
notified, else filter and (on acceptance) notify and record. -/
def processIMAPMessage (acc : AccountConfig) (folder : String)
    (notified : List String) (fired : Nat) (m : IMAPMessage) : List String × Nat :=
  match m.envelope with
  | some env =>
    if m.uid > 0 then
      let emailID := generateEmailID folder m.uid env.MessageId
      let alreadyNotified := notified.contains emailID
      if !alreadyNotified && applyFilters acc env then
        (notified ++ [emailID], fired + 1)
      else
        (notified, fired)
    else
      (notified, fired)
  | none => (notified, fired)

/-- The IMAP fetch loop over one folder's unseen messages. -/
def processIMAPMessages (acc : AccountConfig) (folder : String)
    (notified : List String) (fired : Nat) : List IMAPMessage → List String × Nat
  | [] => (notified, fired)
  | m :: ms =>
    let r := processIMAPMessage acc folder notified fired m
    processIMAPMessages acc folder r.1 r.2 ms

/-- The folder loop of `checkNewEmails`: select each folder (a name absent
from the snapshot models a failed `c.Select` and is skipped), accumulate the
unseen count, and — unless the folder is empty or the unseen search came back
empty — run the fetch loop. -/
def checkIMAPFolders (acc : AccountConfig) (remote : List MailboxData)
    (notified : List String) (fired totalUnread : Nat) :
    List String → List String × Nat × Nat
  | [] => (notified, fired, totalUnread)
  | folder :: rest =>
    match remote.find? (fun mb => mb.name == folder) with
    | none => checkIMAPFolders acc remote notified fired totalUnread rest
    | some mbox =>
      let totalUnread' := totalUnread + mbox.unseen
      if mbox.totalMessages == 0 || mbox.unseenMsgs.isEmpty then
        checkIMAPFolders acc remote notified fired totalUnread' rest
      else
        let r := processIMAPMessages acc folder notified fired mbox.unseenMsgs
        checkIMAPFolders acc remote r.1 r.2 totalUnread' rest

/-- Model of `checkNewEmails(acc)` (IMAP poll cycle executor).  On a
connection failure the function returns the error with the state untouched;
otherwise it runs the folder loop, updates last-check time and unread count,
and persists the history exactly when at least one notification fired. -/
def checkNewEmails (acc : AccountConfig) (st : AccountState) (conn : IMAPConn)
    (now : Nat) : CycleResult :=
  match conn with
  | .ok remote =>
    let folders := getFoldersToCheck acc remote
    let r := checkIMAPFolders acc remote st.notifiedEmails 0 0 folders
    { state :=
        { notifiedEmails := r.1
          lastCheckTime := now
          unreadCount := r.2.2
          historyFile := if r.2.1 > 0 then r.1 else st.historyFile }
      fired := r.2.1
      err := false }
  | _ => { state := st, fired := 0, err := true }

/-- One POP3 message as served by `c.Retr(i)`: whether retrieval (and the
body read) succeeded, the raw body text, and the parsed `From`/`Subject`
headers exposed by the library. -/
structure POP3Message where
  retrOk : Bool
  body : String
  fromHeader : String
  subjectHeader : String
deriving DecidableEq, Repr

/-- Connection outcome for the POP3 cycle: each early-return failure of the
Go code (keyring lookup, `NewConn`, `Auth`, `Stat`) or a live session with
the mailbox's message list (`Stat` count = its length, `Retr i` = its `i`-th
element). -/
inductive POP3Conn where
  | passwordError
  | connectError
  | authError
  | statError
  | ok (msgs : List POP3Message)
deriving DecidableEq, Repr

/-- The POP3 identity: `fmt.Sprintf("pop3-%d-%s", i, extractMessageID(body))`. -/
def pop3ID (i : Nat) (body : String) (now : Nat) : String :=
  "pop3-" ++ toString i ++ "-" ++ extractMessageID body now

/-- The POP3 per-message loop (`for i := 1; i <= msgCount; i++`), with `i` the
1-based index of the head of the remaining list. -/
def processPOP3Messages (acc : AccountConfig) (notified : List String)
    (fired now i : Nat) : List POP3Message → List String × Nat
  | [] => (notified, fired)
  | m :: rest =>
    if !m.retrOk then
      processPOP3Messages acc notified fired now (i + 1) rest
    else
      let emailID := pop3ID i m.body now
      let alreadyNotified := notified.contains emailID
      if !alreadyNotified && applyFiltersPOP3 acc m.fromHeader m.subjectHeader then
        processPOP3Messages acc (notified ++ [emailID]) (fired + 1) now (i + 1) rest
      else
        processPOP3Messages acc notified fired now (i + 1) rest

/-- Model of `checkNewEmailsPOP3(acc)` (POP3 poll cycle executor).  The unread
count is approximated by the total message count, as in the Go code. -/
def checkNewEmailsPOP3 (acc : AccountConfig) (st : AccountState) (conn : POP3Conn)
    (now : Nat) : CycleResult :=
  match conn with
  | .ok msgs =>
    let r := processPOP3Messages acc st.notifiedEmails 0 now 1 msgs
    { state :=
        { notifiedEmails := r.1
          lastCheckTime := now
          unreadCount := msgs.length
          historyFile := if r.2 > 0 then r.1 else st.historyFile }
      fired := r.2
      err := false }
  | _ => { state := st, fired := 0, err := true }

/-! ## History store: file names, save, load, cleanup -/

/-- Model of `sanitizeFilename`: `strings.ReplaceAll(s, "@", "_at_")`,
written per character (the pattern is the single character `@`). -/
def replaceAtChar : List Char → List Char
  | [] => []
  | c :: rest =>
    if c = '@' then '_' :: 'a' :: 't' :: '_' :: replaceAtChar rest
    else c :: replaceAtChar rest

def sanitizeFilename (s : String) : String :=
  String.mk (replaceAtChar s.toList)

/-- The per-account history file key:
`filepath.Join(historyDir, sanitizeFilename(acc.Email)+".json")` with the
common `historyDir` prefix elided. -/
def historyFilename (email : String) : String :=
  sanitizeFilename email ++ ".json"

/-- The history directory as a map from file name to decoded content (the
JSON string array a file holds); `none` is a missing/unreadable file. -/
abbrev FileSystem := String → Option (List String)

/-- Model of `saveNotifiedEmails(acc)`: write the keys of the in-memory map
to the account's history file (JSON marshalling modelled by the list
denotation). -/
def saveNotifiedEmails (fs : FileSystem) (email : String)
    (notifiedEmails : List String) : FileSystem :=
  fun name => if name = historyFilename email then some notifiedEmails else fs name

/-- Model of `loadNotifiedEmails(acc)`: read the account's history file (a
missing or unparsable file leaves the map untouched) and set
`notifiedEmails[e] = true` for every entry. -/
def loadNotifiedEmails (fs : FileSystem) (email : String)
    (notifiedEmails : List String) : List String :=
  match fs (historyFilename email) with
  | none => notifiedEmails
  | some emails =>
    emails.foldl (fun m e => if m.contains e then m else m ++ [e]) notifiedEmails

/-- The deletion loop of `cleanupOldNotifications`: delete keys in iteration
order until the running count exceeds `checkHistory / 2`. -/
def cleanupLoop (checkHistory count : Nat) : List String → List String
  | [] => []
  | k :: rest =>
    if count > checkHistory / 2 then k :: rest
    else cleanupLoop checkHistory (count + 1) rest

/-- Model of `cleanupOldNotifications(acc)` on the in-memory identifier set
(iteration order abstracted as the list order). -/
def cleanupOldNotifications (checkHistory : Nat) (notifiedEmails : List String) :
    List String :=
  if notifiedEmails.length > checkHistory then cleanupLoop checkHistory 0 notifiedEmails
  else notifiedEmails

/-! ## Identities built during a cycle

The following definitions observe, for a given remote snapshot, exactly the
(identity, message) pairs for which the corresponding poll cycle executor
executes its `emailID := ...` line.  They mirror the traversal structure of
`checkNewEmails` / `checkNewEmailsPOP3` branch for branch and are used to
state "every identity built during the cycle ..." properties. -/

/-- The identities `checkNewEmails` builds while fetching one folder, paired
with the message envelope they come from. -/
def builtIMAPMsgs (folder : String) : List IMAPMessage → List (String × Envelope)
  | [] => []
  | m :: ms =>
    match m.envelope with
    | some env =>
      if m.uid > 0 then
        (generateEmailID folder m.uid env.MessageId, env) :: builtIMAPMsgs folder ms
      else
        builtIMAPMsgs folder ms
    | none => builtIMAPMsgs folder ms

/-- The identities `checkNewEmails` builds across a folder list. -/
def builtIMAPFolders (remote : List MailboxData) : List String → List (String × Envelope)
  | [] => []
  | folder :: rest =>
    match remote.find? (fun mb => mb.name == folder) with
    | none => builtIMAPFolders remote rest
    | some mbox =>
      if mbox.totalMessages == 0 || mbox.unseenMsgs.isEmpty then
        builtIMAPFolders remote rest
      else
        builtIMAPMsgs folder mbox.unseenMsgs ++ builtIMAPFolders remote rest

/-- All identities one IMAP poll cycle against `remote` builds. -/
def builtIdentitiesIMAP (acc : AccountConfig) (remote : List MailboxData) :
    List (String × Envelope) :=
  builtIMAPFolders remote (getFoldersToCheck acc remote)

/-- All identities one POP3 poll cycle builds (at clock value `now`, starting
at 1-based message index `i`), paired with the message they come from. -/
def builtPOP3 (now i : Nat) : List POP3Message → List (String × POP3Message)
  | [] => []
  | m :: rest =>
    if !m.retrOk then builtPOP3 now (i + 1) rest
    else (pop3ID i m.body now, m) :: builtPOP3 now (i + 1) rest



/-! ## Supporting lemmas: the IMAP fetch loop -/

/-- Processing one message never removes identifiers from the notified set. -/
theorem mem_processIMAPMessage (acc : AccountConfig) (folder : String)
    (notified : List String) (fired : Nat) (m : IMAPMessage) {x : String}
    (h : x ∈ notified) : x ∈ (processIMAPMessage acc folder notified fired m).1 := by
  unfold processIMAPMessage
  cases m.envelope with
  | none => exact h
  | some env =>
    dsimp only
    split
    · split
      · exact List.mem_append_left _ h
      · exact h
    · exact h

/-- The fetch loop never removes identifiers from the notified set. -/
theorem mem_processIMAPMessages (acc : AccountConfig) (folder : String)
    (ms : List IMAPMessage) :
    ∀ (notified : List String) (fired : Nat) {x : String}, x ∈ notified →
      x ∈ (processIMAPMessages acc folder notified fired ms).1 := by
  induction ms with
  | nil => intro notified fired x h; exact h
  | cons m ms ih =>
    intro notified fired x h
    exact ih _ _ (mem_processIMAPMessage acc folder notified fired m h)

/-- One-step characterization: a message without envelope is skipped. -/
theorem processIMAPMessage_none (acc : AccountConfig) (folder : String)
    (notified : List String) (fired : Nat) {m : IMAPMessage}
    (henv : m.envelope = none) :
    processIMAPMessage acc folder notified fired m = (notified, fired) := by
  simp [processIMAPMessage, henv]

/-- One-step characterization: a message with UID `0` is skipped. -/
theorem processIMAPMessage_uid0 (acc : AccountConfig) (folder : String)
    (notified : List String) (fired : Nat) {m : IMAPMessage} {env : Envelope}
    (henv : m.envelope = some env) (huid : ¬m.uid > 0) :
    processIMAPMessage acc folder notified fired m = (notified, fired) := by
  simp [processIMAPMessage, henv, huid]

/-- One-step characterization of a message that passes the envelope/UID
guard. -/
theorem processIMAPMessage_some (acc : AccountConfig) (folder : String)
    (notified : List String) (fired : Nat) {m : IMAPMessage} {env : Envelope}
    (henv : m.envelope = some env) (huid : m.uid > 0) :
    processIMAPMessage acc folder notified fired m =
      if !notified.contains (generateEmailID folder m.uid env.MessageId) &&
          applyFilters acc env then
        (notified ++ [generateEmailID folder m.uid env.MessageId], fired + 1)
      else
        (notified, fired) := by
  simp [processIMAPMessage, henv, huid]

theorem builtIMAPMsgs_cons_none (folder : String) {m : IMAPMessage}
    (ms : List IMAPMessage) (henv : m.envelope = none) :
    builtIMAPMsgs folder (m :: ms) = builtIMAPMsgs folder ms := by
  simp [builtIMAPMsgs, henv]

theorem builtIMAPMsgs_cons_uid0 (folder : String) {m : IMAPMessage} {env : Envelope}
    (ms : List IMAPMessage) (henv : m.envelope = some env) (huid : ¬m.uid > 0) :
    builtIMAPMsgs folder (m :: ms) = builtIMAPMsgs folder ms := by
  simp [builtIMAPMsgs, henv, huid]

theorem builtIMAPMsgs_cons_some (folder : String) {m : IMAPMessage} {env : Envelope}
    (ms : List IMAPMessage) (henv : m.envelope = some env) (huid : m.uid > 0) :
    builtIMAPMsgs folder (m :: ms) =
      (generateEmailID folder m.uid env.MessageId, env) :: builtIMAPMsgs folder ms := by
  simp [builtIMAPMsgs, henv, huid]

/-- After the fetch loop, every identity it built whose message the filter
accepts is in the notified set. -/
theorem built_processIMAPMessages (acc : AccountConfig) (folder : String)
    (ms : List IMAPMessage) :
    ∀ (notified : List String) (fired : Nat) (p : String × Envelope),
      p ∈ builtIMAPMsgs folder ms → applyFilters acc p.2 = true →
        p.1 ∈ (processIMAPMessages acc folder notified fired ms).1 := by
  induction ms with
  | nil => intro notified fired p hp; simp [builtIMAPMsgs] at hp
  | cons m ms ih =>
    intro notified fired p hp hf
    rw [processIMAPMessages]
    cases henv : m.envelope with
    | none =>
      rw [builtIMAPMsgs_cons_none folder ms henv] at hp
      rw [processIMAPMessage_none acc folder notified fired henv]
      exact ih _ _ p hp hf
    | some env =>
      by_cases huid : m.uid > 0
      · rw [builtIMAPMsgs_cons_some folder ms henv huid] at hp
        rw [processIMAPMessage_some acc folder notified fired henv huid]
        rcases List.mem_cons.mp hp with heq | htail
        · subst heq
          by_cases halready : notified.contains (generateEmailID folder m.uid env.MessageId)
          · have hmem : generateEmailID folder m.uid env.MessageId ∈ notified :=
              List.elem_iff.mp halready
            simp only [halready, Bool.not_true, Bool.false_and, if_neg Bool.false_ne_true]
            exact mem_processIMAPMessages acc folder ms _ _ hmem
          · simp only [Bool.not_eq_true] at halready
            simp only [halready, hf, Bool.not_false, Bool.true_and, if_pos rfl]
            exact mem_processIMAPMessages acc folder ms _ _
              (List.mem_append_right _ (List.mem_singleton.mpr rfl))
        · split
          · exact ih _ _ p htail hf
          · exact ih _ _ p htail hf
      · rw [builtIMAPMsgs_cons_uid0 folder ms henv huid] at hp
        rw [processIMAPMessage_uid0 acc folder notified fired henv huid]
        exact ih _ _ p hp hf

/-- If every identity the fetch loop would build for a filter-accepted
message is already in the notified set, the loop is a no-op. -/
theorem noop_processIMAPMessages (acc : AccountConfig) (folder : String)
    (ms : List IMAPMessage) :
    ∀ (notified : List String) (fired : Nat),
      (∀ p ∈ builtIMAPMsgs folder ms, applyFilters acc p.2 = true → p.1 ∈ notified) →
        processIMAPMessages acc folder notified fired ms = (notified, fired) := by
  induction ms with
  | nil => intro notified fired _; rfl
  | cons m ms ih =>
    intro notified fired hall
    rw [processIMAPMessages]
    cases henv : m.envelope with
    | none =>
      rw [processIMAPMessage_none acc folder notified fired henv]
      refine ih _ _ ?_
      intro p hp
      refine hall p ?_
      rw [builtIMAPMsgs_cons_none folder ms henv]
      exact hp
    | some env =>
      by_cases huid : m.uid > 0
      · rw [processIMAPMessage_some acc folder notified fired henv huid]
        have hskip :
            (!notified.contains (generateEmailID folder m.uid env.MessageId) &&
              applyFilters acc env) = false := by
          by_cases halready : notified.contains (generateEmailID folder m.uid env.MessageId)
          · simp only [halready, Bool.not_true, Bool.false_and]
          · have hfilter : applyFilters acc env = false := by
              by_contra hne
              have hf : applyFilters acc env = true := by
                revert hne; cases applyFilters acc env <;> simp
              have hmem : generateEmailID folder m.uid env.MessageId ∈ notified := by
                refine hall (generateEmailID folder m.uid env.MessageId, env) ?_ hf
                rw [builtIMAPMsgs_cons_some folder ms henv huid]
                exact List.mem_cons_self _ _
              exact halready (List.elem_iff.mpr hmem)
            simp [hfilter]
        rw [hskip]
        simp only [if_neg Bool.false_ne_true]
        refine ih _ _ ?_
        intro p hp
        refine hall p ?_
        rw [builtIMAPMsgs_cons_some folder ms henv huid]
        exact List.mem_cons_of_mem _ hp
      · rw [processIMAPMessage_uid0 acc folder notified fired henv huid]
        refine ih _ _ ?_
        intro p hp
        refine hall p ?_
        rw [builtIMAPMsgs_cons_uid0 folder ms henv huid]
        exact hp

/-! ## Supporting lemmas: the IMAP folder loop -/

theorem checkIMAPFolders_cons_nofind (acc : AccountConfig) (remote : List MailboxData)
    (notified : List String) (fired unread : Nat) {folder : String} (rest : List String)
    (hfind : remote.find? (fun mb => mb.name == folder) = none) :
    checkIMAPFolders acc remote notified fired unread (folder :: rest) =
      checkIMAPFolders acc remote notified fired unread rest := by
  simp [checkIMAPFolders, hfind]

theorem checkIMAPFolders_cons_skip (acc : AccountConfig) (remote : List MailboxData)
    (notified : List String) (fired unread : Nat) {folder : String} (rest : List String)
    {mbox : MailboxData} (hfind : remote.find? (fun mb => mb.name == folder) = some mbox)
    (hskip : (mbox.totalMessages == 0 || mbox.unseenMsgs.isEmpty) = true) :
    checkIMAPFolders acc remote notified fired unread (folder :: rest) =
      checkIMAPFolders acc remote notified fired (unread + mbox.unseen) rest := by
  simp only [checkIMAPFolders, hfind, hskip, if_pos]

theorem checkIMAPFolders_cons_fetch (acc : AccountConfig) (remote : List MailboxData)
    (notified : List String) (fired unread : Nat) {folder : String} (rest : List String)
    {mbox : MailboxData} (hfind : remote.find? (fun mb => mb.name == folder) = some mbox)
    (hskip : (mbox.totalMessages == 0 || mbox.unseenMsgs.isEmpty) = false) :
    checkIMAPFolders acc remote notified fired unread (folder :: rest) =
      checkIMAPFolders acc remote
        (processIMAPMessages acc folder notified fired mbox.unseenMsgs).1
        (processIMAPMessages acc folder notified fired mbox.unseenMsgs).2
        (unread + mbox.unseen) rest := by
  simp only [checkIMAPFolders, hfind, hskip, Bool.false_eq_true, if_false]

theorem builtIMAPFolders_cons_nofind (remote : List MailboxData) {folder : String}
    (rest : List String) (hfind : remote.find? (fun mb => mb.name == folder) = none) :
    builtIMAPFolders remote (folder :: rest) = builtIMAPFolders remote rest := by
  simp [builtIMAPFolders, hfind]

theorem builtIMAPFolders_cons_skip (remote : List MailboxData) {folder : String}
    (rest : List String) {mbox : MailboxData}
    (hfind : remote.find? (fun mb => mb.name == folder) = some mbox)
    (hskip : (mbox.totalMessages == 0 || mbox.unseenMsgs.isEmpty) = true) :
    builtIMAPFolders remote (folder :: rest) = builtIMAPFolders remote rest := by
  simp only [builtIMAPFolders, hfind, hskip, if_pos]

theorem builtIMAPFolders_cons_fetch (remote : List MailboxData) {folder : String}
    (rest : List String) {mbox : MailboxData}
    (hfind : remote.find? (fun mb => mb.name == folder) = some mbox)
    (hskip : (mbox.totalMessages == 0 || mbox.unseenMsgs.isEmpty) = false) :
    builtIMAPFolders remote (folder :: rest) =
      builtIMAPMsgs folder mbox.unseenMsgs ++ builtIMAPFolders remote rest := by
  simp only [builtIMAPFolders, hfind, hskip, Bool.false_eq_true, if_false]

/-- The folder loop never removes identifiers from the notified set. -/
theorem mem_checkIMAPFolders (acc : AccountConfig) (remote : List MailboxData)
    (folders : List String) :
    ∀ (notified : List String) (fired unread : Nat) {x : String}, x ∈ notified →
      x ∈ (checkIMAPFolders acc remote notified fired unread folders).1 := by
  induction folders with
  | nil => intro notified fired unread x h; exact h
  | cons folder rest ih =>
    intro notified fired unread x h
    cases hfind : remote.find? (fun mb => mb.name == folder) with
    | none =>
      rw [checkIMAPFolders_cons_nofind acc remote notified fired unread rest hfind]
      exact ih _ _ _ h
    | some mbox =>
      cases hskip : (mbox.totalMessages == 0 || mbox.unseenMsgs.isEmpty) with
      | true =>
        rw [checkIMAPFolders_cons_skip acc remote notified fired unread rest hfind hskip]
        exact ih _ _ _ h
      | false =>
        rw [checkIMAPFolders_cons_fetch acc remote notified fired unread rest hfind hskip]
        exact ih _ _ _ (mem_processIMAPMessages acc folder mbox.unseenMsgs _ _ h)

/-- After the folder loop, every identity it built whose message the filter
accepts is in the notified set. -/
theorem built_checkIMAPFolders (acc : AccountConfig) (remote : List MailboxData)
    (folders : List String) :
    ∀ (notified : List String) (fired unread : Nat) (p : String × Envelope),
      p ∈ builtIMAPFolders remote folders → applyFilters acc p.2 = true →
        p.1 ∈ (checkIMAPFolders acc remote notified fired unread folders).1 := by
  induction folders with
  | nil => intro notified fired unread p hp; simp [builtIMAPFolders] at hp
  | cons folder rest ih =>
    intro notified fired unread p hp hf
    cases hfind : remote.find? (fun mb => mb.name == folder) with
    | none =>
      rw [builtIMAPFolders_cons_nofind remote rest hfind] at hp
      rw [checkIMAPFolders_cons_nofind acc remote notified fired unread rest hfind]
      exact ih _ _ _ p hp hf
    | some mbox =>
      cases hskip : (mbox.totalMessages == 0 || mbox.unseenMsgs.isEmpty) with
      | true =>
        rw [builtIMAPFolders_cons_skip remote rest hfind hskip] at hp
        rw [checkIMAPFolders_cons_skip acc remote notified fired unread rest hfind hskip]
        exact ih _ _ _ p hp hf
      | false =>
        rw [builtIMAPFolders_cons_fetch remote rest hfind hskip] at hp
        rw [checkIMAPFolders_cons_fetch acc remote notified fired unread rest hfind hskip]
        rcases List.mem_append.mp hp with hleft | hright
        · exact mem_checkIMAPFolders acc remote rest _ _ _
            (built_processIMAPMessages acc folder mbox.unseenMsgs notified fired p hleft hf)
        · exact ih _ _ _ p hright hf

/-- If every identity the folder loop would build for a filter-accepted
message is already in the notified set, the loop changes neither the notified
set nor the notification count. -/
theorem noop_checkIMAPFolders (acc : AccountConfig) (remote : List MailboxData)
    (folders : List String) :
    ∀ (notified : List String) (fired unread : Nat),
      (∀ p ∈ builtIMAPFolders remote folders, applyFilters acc p.2 = true → p.1 ∈ notified) →
        (checkIMAPFolders acc remote notified fired unread folders).1 = notified ∧
          (checkIMAPFolders acc remote notified fired unread folders).2.1 = fired := by
  induction folders with
  | nil => intro notified fired unread _; exact ⟨rfl, rfl⟩
  | cons folder rest ih =>
    intro notified fired unread hall
    cases hfind : remote.find? (fun mb => mb.name == folder) with
    | none =>
      rw [checkIMAPFolders_cons_nofind acc remote notified fired unread rest hfind]
      refine ih _ _ _ ?_
      intro p hp
      refine hall p ?_
      rw [builtIMAPFolders_cons_nofind remote rest hfind]
      exact hp
    | some mbox =>
      cases hskip : (mbox.totalMessages == 0 || mbox.unseenMsgs.isEmpty) with
      | true =>
        rw [checkIMAPFolders_cons_skip acc remote notified fired unread rest hfind hskip]
        refine ih _ _ _ ?_
        intro p hp
        refine hall p ?_
        rw [builtIMAPFolders_cons_skip remote rest hfind hskip]
        exact hp
      | false =>
        rw [checkIMAPFolders_cons_fetch acc remote notified fired unread rest hfind hskip]
        have hproc : processIMAPMessages acc folder notified fired mbox.unseenMsgs =
            (notified, fired) := by
          refine noop_processIMAPMessages acc folder mbox.unseenMsgs _ _ ?_
          intro p hp
          refine hall p ?_
          rw [builtIMAPFolders_cons_fetch remote rest hfind hskip]
          exact List.mem_append_left _ hp
        rw [hproc]
        refine ih _ _ _ ?_
        intro p hp
        refine hall p ?_
        rw [builtIMAPFolders_cons_fetch remote rest hfind hskip]
        exact List.mem_append_right _ hp

/-! ## Supporting lemmas: the POP3 message loop -/

theorem processPOP3Messages_cons_retrFail (acc : AccountConfig)
    (notified : List String) (fired now i : Nat) {m : POP3Message}
    (rest : List POP3Message) (hretr : m.retrOk = false) :
    processPOP3Messages acc notified fired now i (m :: rest) =
      processPOP3Messages acc notified fired now (i + 1) rest := by
  simp [processPOP3Messages, hretr]

theorem processPOP3Messages_cons_retrOk (acc : AccountConfig)
    (notified : List String) (fired now i : Nat) {m : POP3Message}
    (rest : List POP3Message) (hretr : m.retrOk = true) :
    processPOP3Messages acc notified fired now i (m :: rest) =
      (if !notified.contains (pop3ID i m.body now) &&
          applyFiltersPOP3 acc m.fromHeader m.subjectHeader then
        processPOP3Messages acc (notified ++ [pop3ID i m.body now]) (fired + 1) now (i + 1) rest
      else
        processPOP3Messages acc notified fired now (i + 1) rest) := by
  simp only [processPOP3Messages, hretr, Bool.not_true, Bool.false_eq_true, if_false]

theorem builtPOP3_cons_retrFail (now i : Nat) {m : POP3Message}
    (rest : List POP3Message) (hretr : m.retrOk = false) :
    builtPOP3 now i (m :: rest) = builtPOP3 now (i + 1) rest := by
  simp [builtPOP3, hretr]

theorem builtPOP3_cons_retrOk (now i : Nat) {m : POP3Message}
    (rest : List POP3Message) (hretr : m.retrOk = true) :
    builtPOP3 now i (m :: rest) = (pop3ID i m.body now, m) :: builtPOP3 now (i + 1) rest := by
  simp only [builtPOP3, hretr, Bool.not_true, Bool.false_eq_true, if_false]

/-- The POP3 loop never removes identifiers from the notified set. -/
theorem mem_processPOP3Messages (acc : AccountConfig) (ms : List POP3Message) :
    ∀ (notified : List String) (fired now i : Nat) {x : String}, x ∈ notified →
      x ∈ (processPOP3Messages acc notified fired now i ms).1 := by
  induction ms with
  | nil => intro notified fired now i x h; exact h
  | cons m rest ih =>
    intro notified fired now i x h
    cases hretr : m.retrOk with
    | false =>
      rw [processPOP3Messages_cons_retrFail acc notified fired now i rest hretr]
      exact ih _ _ _ _ h
    | true =>
      rw [processPOP3Messages_cons_retrOk acc notified fired now i rest hretr]
      split
      · exact ih _ _ _ _ (List.mem_append_left _ h)
      · exact ih _ _ _ _ h

/-- After the POP3 loop, every identity it built whose message the filter
accepts is in the notified set. -/
theorem built_processPOP3Messages (acc : AccountConfig) (ms : List POP3Message) :
    ∀ (notified : List String) (fired now i : Nat) (p : String × POP3Message),
      p ∈ builtPOP3 now i ms →
      applyFiltersPOP3 acc p.2.fromHeader p.2.subjectHeader = true →
        p.1 ∈ (processPOP3Messages acc notified fired now i ms).1 := by
  induction ms with
  | nil => intro notified fired now i p hp; simp [builtPOP3] at hp
  | cons m rest ih =>
    intro notified fired now i p hp hf
    cases hretr : m.retrOk with
    | false =>
      rw [builtPOP3_cons_retrFail now i rest hretr] at hp
      rw [processPOP3Messages_cons_retrFail acc notified fired now i rest hretr]
      exact ih _ _ _ _ p hp hf
    | true =>
      rw [builtPOP3_cons_retrOk now i rest hretr] at hp
      rw [processPOP3Messages_cons_retrOk acc notified fired now i rest hretr]
      rcases List.mem_cons.mp hp with heq | htail
      · subst heq
        by_cases halready : notified.contains (pop3ID i m.body now)
        · have hmem : pop3ID i m.body now ∈ notified := List.elem_iff.mp halready
          simp only [halready, Bool.not_true, Bool.false_and, if_neg Bool.false_ne_true]
          exact mem_processPOP3Messages acc rest _ _ _ _ hmem
        · simp only [Bool.not_eq_true] at halready
          simp only [halready, hf, Bool.not_false, Bool.true_and, if_pos rfl]
          exact mem_processPOP3Messages acc rest _ _ _ _
            (List.mem_append_right _ (List.mem_singleton.mpr rfl))
      · split
        · exact ih _ _ _ _ p htail hf
        · exact ih _ _ _ _ p htail hf

/-- If every identity the POP3 loop would build for a filter-accepted message
is already in the notified set, the loop is a no-op. -/
theorem noop_processPOP3Messages (acc : AccountConfig) (ms : List POP3Message) :
    ∀ (notified : List String) (fired now i : Nat),
      (∀ p ∈ builtPOP3 now i ms,
        applyFiltersPOP3 acc p.2.fromHeader p.2.subjectHeader = true → p.1 ∈ notified) →
        processPOP3Messages acc notified fired now i ms = (notified, fired) := by
  induction ms with
  | nil => intro notified fired now i _; rfl
  | cons m rest ih =>
    intro notified fired now i hall
    cases hretr : m.retrOk with
    | false =>
      rw [processPOP3Messages_cons_retrFail acc notified fired now i rest hretr]
      refine ih _ _ _ _ ?_
      intro p hp
      refine hall p ?_
      rw [builtPOP3_cons_retrFail now i rest hretr]
      exact hp
    | true =>
      rw [processPOP3Messages_cons_retrOk acc notified fired now i rest hretr]
      have hskip :
          (!notified.contains (pop3ID i m.body now) &&
            applyFiltersPOP3 acc m.fromHeader m.subjectHeader) = false := by
        by_cases halready : notified.contains (pop3ID i m.body now)
        · simp only [halready, Bool.not_true, Bool.false_and]
        · have hfilter : applyFiltersPOP3 acc m.fromHeader m.subjectHeader = false := by
            by_contra hne
            have hf : applyFiltersPOP3 acc m.fromHeader m.subjectHeader = true := by
              revert hne; cases applyFiltersPOP3 acc m.fromHeader m.subjectHeader <;> simp
            have hmem : pop3ID i m.body now ∈ notified := by
              refine hall (pop3ID i m.body now, m) ?_ hf
              rw [builtPOP3_cons_retrOk now i rest hretr]
              exact List.mem_cons_self _ _
            exact halready (List.elem_iff.mpr hmem)
          simp [hfilter]
      rw [hskip]
      simp only [if_neg Bool.false_ne_true]
      refine ih _ _ _ _ ?_
      intro p hp
      refine hall p ?_
      rw [builtPOP3_cons_retrOk now i rest hretr]
      exact List.mem_cons_of_mem _ hp

/-- When a POP3 message carries a `Message-ID` header, its identity does not
depend on the wall clock. -/
theorem pop3ID_time_indep {body : String} (h : extractHeader body "Message-ID" ≠ "")
    (i now now' : Nat) : pop3ID i body now = pop3ID i body now' := by
  unfold pop3ID extractMessageID
  simp only [bne_iff_ne, ne_eq, h, not_false_eq_true, if_true]

/-- Under the same hypothesis the whole built-identity list of a POP3 cycle is
clock-independent. -/
theorem builtPOP3_time_indep (ms : List POP3Message)
    (hmid : ∀ m ∈ ms, m.retrOk = true → extractHeader m.body "Message-ID" ≠ "") :
    ∀ (i now now' : Nat), builtPOP3 now i ms = builtPOP3 now' i ms := by
  induction ms with
  | nil => intro i now now'; rfl
  | cons m rest ih =>
    intro i now now'
    have hrest : ∀ m' ∈ rest, m'.retrOk = true → extractHeader m'.body "Message-ID" ≠ "" :=
      fun m' hm' => hmid m' (List.mem_cons_of_mem _ hm')
    cases hretr : m.retrOk with
    | false =>
      rw [builtPOP3_cons_retrFail now i rest hretr, builtPOP3_cons_retrFail now' i rest hretr]
      exact ih hrest _ _ _
    | true =>
      rw [builtPOP3_cons_retrOk now i rest hretr, builtPOP3_cons_retrOk now' i rest hretr]
      rw [pop3ID_time_indep (hmid m (List.mem_cons_self _ _) hretr) i now now']
      rw [ih hrest (i + 1) now now']

/-! ## Supporting lemmas: strings, history store, cleanup -/

/-- String concatenation is left-cancellative. -/
theorem string_append_left_cancel {a b c : String} (h : a ++ b = a ++ c) : b = c := by
  have h2 := congrArg String.data h
  simp only [String.data_append] at h2
  exact String.ext (List.append_cancel_left h2)

/-- `List.contains` is the decidable membership test (exact equality). -/
theorem contains_eq_decide_mem (l : List String) (f : String) :
    l.contains f = decide (f ∈ l) := by
  simp

/-- Membership after the load fold: an identifier is present iff it was in
the file or already in the map. -/
theorem mem_load_fold (emails : List String) :
    ∀ (m : List String) (x : String),
      (x ∈ emails.foldl (fun m e => if m.contains e then m else m ++ [e]) m ↔
        x ∈ emails ∨ x ∈ m) := by
  induction emails with
  | nil => intro m x; simp
  | cons e rest ih =>
    intro m x
    rw [List.foldl_cons]
    by_cases hc : m.contains e
    · have he : e ∈ m := List.elem_iff.mp hc
      rw [if_pos hc, ih m x, List.mem_cons]
      constructor
      · rintro (h | h)
        · exact Or.inl (Or.inr h)
        · exact Or.inr h
      · rintro ((h | h) | h)
        · exact Or.inr (h ▸ he)
        · exact Or.inl h
        · exact Or.inr h
    · rw [if_neg hc, ih (m ++ [e]) x, List.mem_cons]
      constructor
      · rintro (h | h)
        · exact Or.inl (Or.inr h)
        · rcases List.mem_append.mp h with h | h
          · exact Or.inr h
          · exact Or.inl (Or.inl (List.mem_singleton.mp h))
      · rintro ((h | h) | h)
        · exact Or.inr (List.mem_append_right _ (List.mem_singleton.mpr h))
        · exact Or.inl h
        · exact Or.inr (List.mem_append_left _ h)

/-- The load fold keeps the map free of duplicate keys. -/
theorem nodup_load_fold (emails : List String) :
    ∀ (m : List String), m.Nodup →
      (emails.foldl (fun m e => if m.contains e then m else m ++ [e]) m).Nodup := by
  induction emails with
  | nil => intro m hm; exact hm
  | cons e rest ih =>
    intro m hm
    rw [List.foldl_cons]
    by_cases hc : m.contains e
    · rw [if_pos hc]; exact ih m hm
    · rw [if_neg hc]
      refine ih (m ++ [e]) ?_
      have he : e ∉ m := fun hmem => hc (List.elem_iff.mpr hmem)
      simp [List.nodup_append, hm, he]

/-- The cleanup loop drops the first `checkHistory / 2 + 1 - count` keys. -/
theorem cleanupLoop_eq_drop (checkHistory : Nat) :
    ∀ (l : List String) (count : Nat),
      cleanupLoop checkHistory count l = l.drop (checkHistory / 2 + 1 - count) := by
  intro l
  induction l with
  | nil => intro count; simp [cleanupLoop]
  | cons k rest ih =>
    intro count
    rw [cleanupLoop]
    by_cases h : count > checkHistory / 2
    · rw [if_pos h]
      have : checkHistory / 2 + 1 - count = 0 := by omega
      rw [this, List.drop_zero]
    · rw [if_neg h, ih (count + 1)]
      have : checkHistory / 2 + 1 - count = (checkHistory / 2 + 1 - (count + 1)) + 1 := by omega
      rw [this, List.drop_succ_cons]

/-! ## Claim theorems -/

/-- **C2**: for every filter policy whose exclude-senders set contains an
address `A`, and every message whose derived sender address case-insensitively
equals `A`, the filter evaluator returns `false`, regardless of the subject
and of the contents of the include-senders and include-keywords sets. -/
theorem c2_exclude_sender_rejects (acc : AccountConfig) (env : Envelope) (A : String)
    (hA : A ∈ acc.ExcludeEmail) (hEq : eqFold (envelopeSender env) A = true) :
    applyFilters acc env = false := by
  have hany :
      acc.ExcludeEmail.any (fun excludeEmail => eqFold (envelopeSender env) excludeEmail)
        = true :=
    List.any_eq_true.mpr ⟨A, hA, hEq⟩
  simp [applyFilters, hany]

/-- Witness for C2: a concrete policy excluding `blocked@x.com` rejects a
message from `Blocked@X.COM` even though both include lists would match it. -/
theorem c2_witness :
    applyFilters
      { Email := "me@x", IncludeKeyword := ["hello"], ExcludeKeyword := [],
        IncludeEmail := ["blocked@x.com"], ExcludeEmail := ["blocked@x.com"],
        CheckHistory := 1000, FolderMode := "all", IncludeFolders := [], ExcludeFolders := [] }
      { From := [⟨"Blocked", "X.COM"⟩], Subject := "hello", MessageId := "" } = false :=
  c2_exclude_sender_rejects _ _ "blocked@x.com" (by decide) (by decide)

/-- **C3**: under a selective policy (some include rule configured), a message
that survives the exclude rules but matches no include-sender and no
include-keyword is rejected; under a non-selective policy (both include sets
empty) a message that survives the exclude rules is accepted. -/
theorem c3_selective_reject_default_accept (acc : AccountConfig) (env : Envelope) :
    ((acc.IncludeEmail ≠ [] ∨ acc.IncludeKeyword ≠ []) →
      (∀ e ∈ acc.ExcludeEmail, eqFold (envelopeSender env) e = false) →
      (∀ k ∈ acc.ExcludeKeyword, strContains (strToLower env.Subject) (strToLower k) = false) →
      (∀ e ∈ acc.IncludeEmail, eqFold (envelopeSender env) e = false) →
      (∀ k ∈ acc.IncludeKeyword, strContains (strToLower env.Subject) (strToLower k) = false) →
      applyFilters acc env = false) ∧
    (acc.IncludeEmail = [] → acc.IncludeKeyword = [] →
      (∀ e ∈ acc.ExcludeEmail, eqFold (envelopeSender env) e = false) →
      (∀ k ∈ acc.ExcludeKeyword, strContains (strToLower env.Subject) (strToLower k) = false) →
      applyFilters acc env = true) := by
  constructor
  · intro hsel hexe hexk hince hinck
    have h1 : acc.ExcludeEmail.any (fun e => eqFold (envelopeSender env) e) = false :=
      List.any_eq_false.mpr (fun e he => by simp [hexe e he])
    have h2 : acc.ExcludeKeyword.any
        (fun k => strContains (strToLower env.Subject) (strToLower k)) = false :=
      List.any_eq_false.mpr (fun k hk => by simp [hexk k hk])
    have h3 : acc.IncludeEmail.any (fun e => eqFold (envelopeSender env) e) = false :=
      List.any_eq_false.mpr (fun e he => by simp [hince e he])
    have h4 : acc.IncludeKeyword.any
        (fun k => strContains (strToLower env.Subject) (strToLower k)) = false :=
      List.any_eq_false.mpr (fun k hk => by simp [hinck k hk])
    have h5 : (!acc.IncludeEmail.isEmpty || !acc.IncludeKeyword.isEmpty) = true := by
      rcases hsel with h | h <;> simp [List.isEmpty_iff, h]
    simp [applyFilters, h1, h2, h3, h4, h5]
  · intro hie hik hexe hexk
    have h1 : acc.ExcludeEmail.any (fun e => eqFold (envelopeSender env) e) = false :=
      List.any_eq_false.mpr (fun e he => by simp [hexe e he])
    have h2 : acc.ExcludeKeyword.any
        (fun k => strContains (strToLower env.Subject) (strToLower k)) = false :=
      List.any_eq_false.mpr (fun k hk => by simp [hexk k hk])
    simp [applyFilters, h1, h2, hie, hik]

/-- Witness for C3: the selective policy `include-senders = ["boss@co.com"]`
rejects a non-matching message, and the all-empty policy accepts it. -/
theorem c3_witness :
    applyFilters
      { Email := "me@x", IncludeKeyword := [], ExcludeKeyword := [],
        IncludeEmail := ["boss@co.com"], ExcludeEmail := [],
        CheckHistory := 1000, FolderMode := "all", IncludeFolders := [], ExcludeFolders := [] }
      { From := [⟨"other", "co.com"⟩], Subject := "lunch?", MessageId := "" } = false ∧
    applyFilters
      { Email := "me@x", IncludeKeyword := [], ExcludeKeyword := [],
        IncludeEmail := [], ExcludeEmail := [],
        CheckHistory := 1000, FolderMode := "all", IncludeFolders := [], ExcludeFolders := [] }
      { From := [⟨"other", "co.com"⟩], Subject := "lunch?", MessageId := "" } = true :=
  ⟨(c3_selective_reject_default_accept _ _).1 (Or.inl (by decide)) (by decide) (by decide)
      (by decide) (by decide),
    (c3_selective_reject_default_accept _ _).2 rfl rfl (by decide) (by decide)⟩

/-- **C4**: the identity builder is total and deterministic by construction
(it is a pure function); with a non-empty message identifier the identity
embeds folder, UID and message identifier verbatim, so two messages sharing
folder and UID but differing in message identifier get different identities;
with an empty message identifier the identity is folder and UID only. -/
theorem c4_identity_builder (folder : String) (uid : Nat) (m₁ m₂ : String)
    (h₁ : m₁ ≠ "") (h₂ : m₂ ≠ "") :
    generateEmailID folder uid m₁ = folder ++ "-" ++ toString uid ++ "-" ++ m₁ ∧
    (generateEmailID folder uid m₁ = generateEmailID folder uid m₂ → m₁ = m₂) ∧
    generateEmailID folder uid "" = folder ++ "-" ++ toString uid := by
  have e₁ : generateEmailID folder uid m₁ = folder ++ "-" ++ toString uid ++ "-" ++ m₁ := by
    simp [generateEmailID, h₁]
  have e₂ : generateEmailID folder uid m₂ = folder ++ "-" ++ toString uid ++ "-" ++ m₂ := by
    simp [generateEmailID, h₂]
  refine ⟨e₁, ?_, by simp [generateEmailID]⟩
  intro h
  rw [e₁, e₂] at h
  exact string_append_left_cancel h

/-- Witness for C4 at `("INBOX", 7, "<a@x>", "<b@x>")`. -/
theorem c4_witness :
    generateEmailID "INBOX" 7 "<a@x>" = "INBOX" ++ "-" ++ toString 7 ++ "-" ++ "<a@x>" ∧
    (generateEmailID "INBOX" 7 "<a@x>" = generateEmailID "INBOX" 7 "<b@x>" → "<a@x>" = "<b@x>") ∧
    generateEmailID "INBOX" 7 "" = "INBOX" ++ "-" ++ toString 7 :=
  c4_identity_builder "INBOX" 7 "<a@x>" "<b@x>" (by decide) (by decide)

/-- **C5**: every connection-acquisition failure (secret-store lookup, dial,
TLS, login/auth, stat) makes the poll cycle return an error with the
account's last-check time, unread count, notified set and persisted history
file all unchanged and zero notifications fired, for both executors. -/
theorem c5_connection_failure_preserves_state (acc : AccountConfig) (st : AccountState)
    (now : Nat) :
    checkNewEmails acc st .passwordError now = ⟨st, 0, true⟩ ∧
    checkNewEmails acc st .dialError now = ⟨st, 0, true⟩ ∧
    checkNewEmails acc st .loginError now = ⟨st, 0, true⟩ ∧
    checkNewEmailsPOP3 acc st .passwordError now = ⟨st, 0, true⟩ ∧
    checkNewEmailsPOP3 acc st .connectError now = ⟨st, 0, true⟩ ∧
    checkNewEmailsPOP3 acc st .authError now = ⟨st, 0, true⟩ ∧
    checkNewEmailsPOP3 acc st .statError now = ⟨st, 0, true⟩ :=
  ⟨rfl, rfl, rfl, rfl, rfl, rfl, rfl⟩

/-- **C6** counterexample: with history cap 4 and ten remembered identifiers
(size strictly above the cap), one cleanup invocation leaves seven
identifiers, which is more than half the cap (2) — the claim "reduces the
size to at most half the cap for every starting size above the cap" is false
on the code. -/
theorem c6_counterexample :
    ¬((cleanupOldNotifications 4
        ["e1", "e2", "e3", "e4", "e5", "e6", "e7", "e8", "e9", "e10"]).length ≤ 4 / 2) := by
  decide

/-- **C6** (amended): when the notified set's size exceeds the cap, one
cleanup invocation deletes exactly the first `cap / 2 + 1` identifiers in
iteration order, so the size drops by `cap / 2 + 1` — to at most half the cap
only when the starting size is within `cap / 2 + 1` of that bound, not for
every starting size above the cap. -/
theorem c6_cleanup_drops_half_cap_plus_one (checkHistory : Nat)
    (notifiedEmails : List String) (h : notifiedEmails.length > checkHistory) :
    cleanupOldNotifications checkHistory notifiedEmails =
      notifiedEmails.drop (checkHistory / 2 + 1) ∧
    (cleanupOldNotifications checkHistory notifiedEmails).length =
      notifiedEmails.length - (checkHistory / 2 + 1) := by
  have heq : cleanupOldNotifications checkHistory notifiedEmails =
      notifiedEmails.drop (checkHistory / 2 + 1) := by
    rw [cleanupOldNotifications, if_pos h, cleanupLoop_eq_drop, Nat.sub_zero]
  exact ⟨heq, by rw [heq, List.length_drop]⟩

/-- Witness for C6 (amended) at cap 4 with ten identifiers. -/
theorem c6_witness :
    cleanupOldNotifications 4 ["e1", "e2", "e3", "e4", "e5", "e6", "e7", "e8", "e9", "e10"] =
      ["e1", "e2", "e3", "e4", "e5", "e6", "e7", "e8", "e9", "e10"].drop (4 / 2 + 1) ∧
    (cleanupOldNotifications 4
        ["e1", "e2", "e3", "e4", "e5", "e6", "e7", "e8", "e9", "e10"]).length =
      ["e1", "e2", "e3", "e4", "e5", "e6", "e7", "e8", "e9", "e10"].length - (4 / 2 + 1) :=
  c6_cleanup_drops_half_cap_plus_one 4 _ (by decide)

/-- **C7**: the history store's save/load pair is a round-trip: saving an
account's identifier set and loading that account's history back into an
empty in-memory map yields exactly the saved set — nothing lost, nothing
added (and the resulting map has no duplicate keys). -/
theorem c7_history_roundtrip (fs : FileSystem) (email : String) (S : List String) :
    (∀ x, x ∈ loadNotifiedEmails (saveNotifiedEmails fs email S) email [] ↔ x ∈ S) ∧
    (loadNotifiedEmails (saveNotifiedEmails fs email S) email []).Nodup := by
  have hread : saveNotifiedEmails fs email S (historyFilename email) = some S := by
    simp [saveNotifiedEmails]
  have hload : loadNotifiedEmails (saveNotifiedEmails fs email S) email [] =
      S.foldl (fun m e => if m.contains e then m else m ++ [e]) [] := by
    rw [loadNotifiedEmails, hread]
  constructor
  · intro x
    rw [hload, mem_load_fold]
    simp
  · rw [hload]
    exact nodup_load_fold S [] List.nodup_nil

/-- **C8**: in exclude mode the folder selector returns exactly the live
listing with the folders whose names are members of the exclude set removed
(exact equality, order preserved); in particular excluding
`["Spam", "Trash"]` from `["INBOX", "Spam", "Work", "Trash"]` yields
`["INBOX", "Work"]`. -/
theorem c8_folder_exclude (acc : AccountConfig) (remote : List MailboxData) :
    getFoldersToCheck { acc with FolderMode := "exclude" } remote =
      (listFolders remote).filter (fun f => decide (f ∉ acc.ExcludeFolders)) ∧
    List.Sublist (getFoldersToCheck { acc with FolderMode := "exclude" } remote)
      (listFolders remote) ∧
    getFoldersToCheck
      { acc with FolderMode := "exclude", ExcludeFolders := ["Spam", "Trash"] }
      [⟨"INBOX", 0, 0, []⟩, ⟨"Spam", 0, 0, []⟩, ⟨"Work", 0, 0, []⟩, ⟨"Trash", 0, 0, []⟩] =
      ["INBOX", "Work"] := by
  have hmain : getFoldersToCheck { acc with FolderMode := "exclude" } remote =
      (listFolders remote).filter (fun f => decide (f ∉ acc.ExcludeFolders)) := by
    show (listFolders remote).filter (fun f => !(acc.ExcludeFolders.contains f)) =
      (listFolders remote).filter (fun f => decide (f ∉ acc.ExcludeFolders))
    refine List.filter_congr ?_
    intro f _
    rw [contains_eq_decide_mem]
    by_cases h : f ∈ acc.ExcludeFolders <;> simp [h]
  refine ⟨hmain, ?_, rfl⟩
  rw [hmain]
  exact List.filter_sublist _

/-- **C10**: the history-file name map only replaces `"@"` by `"_at_"` and is
not injective: the distinct account identities `a@b.com` and `a_at_b.com`
share one history file name, so saving the first account's history makes it
what the second account's file holds (mutual read/overwrite). -/
theorem c10_sanitize_collision :
    sanitizeFilename "a@b.com" = sanitizeFilename "a_at_b.com" ∧
    ("a@b.com" : String) ≠ "a_at_b.com" ∧
    ∀ (fs : FileSystem) (S : List String),
      saveNotifiedEmails fs "a@b.com" S (historyFilename "a_at_b.com") = some S := by
  refine ⟨by decide, by decide, ?_⟩
  intro fs S
  have h : historyFilename "a_at_b.com" = historyFilename "a@b.com" := by decide
  simp [saveNotifiedEmails, h]

/-- **C9**: the IMAP and POP3 filter evaluators implement the same decision
function: whenever the address extracted from a POP3 `From` header equals the
sender address the IMAP evaluator derives from an envelope, both evaluators
return the same boolean on the same subject (identical exclude/include
precedence and case handling). -/
theorem c9_filter_evaluators_agree (acc : AccountConfig) (env : Envelope)
    (fromStr : String) (h : extractEmailAddress fromStr = envelopeSender env) :
    applyFiltersPOP3 acc fromStr env.Subject = applyFilters acc env := by
  simp only [applyFiltersPOP3, applyFilters, h]

/-- Witness for C9: `"Boss <boss@co.com>"` extracts to the sender the IMAP
evaluator derives from mailbox `boss` at host `co.com`. -/
theorem c9_witness :
    applyFiltersPOP3
      { Email := "me@x", IncludeKeyword := [], ExcludeKeyword := [],
        IncludeEmail := ["boss@co.com"], ExcludeEmail := [],
        CheckHistory := 1000, FolderMode := "all", IncludeFolders := [], ExcludeFolders := [] }
      "Boss <boss@co.com>" "lunch?" =
    applyFilters
      { Email := "me@x", IncludeKeyword := [], ExcludeKeyword := [],
        IncludeEmail := ["boss@co.com"], ExcludeEmail := [],
        CheckHistory := 1000, FolderMode := "all", IncludeFolders := [], ExcludeFolders := [] }
      { From := [⟨"boss", "co.com"⟩], Subject := "lunch?", MessageId := "" } :=
  c9_filter_evaluators_agree _
    { From := [⟨"boss", "co.com"⟩], Subject := "lunch?", MessageId := "" }
    "Boss <boss@co.com>" (by decide)

/-- **C1** counterexample.  Two parts, each refuting one conjunct of the
claim on a concrete input.
(1) IMAP: with exclude-keyword `"spam"` and a single unseen message whose
subject matches it, the first cycle notifies nothing, so the identity
`INBOX-1-mid1` — which the second cycle builds, the message being in the
snapshot with an envelope and a positive UID (first conjunct) — is *not* a
member of the notified set afterwards (second conjunct): "every identity
built in the second cycle is already a member" fails for filter-rejected
messages.
(2) POP3: a retrievable message whose raw content carries no `Message-ID`
header gets a wall-clock identity; with clock values 5 and 9 for the two
cycles the second cycle fires one more notification, refuting "zero
additional notifications". -/
theorem c1_counterexample :
    (("INBOX-1-mid1",
        ({ From := [⟨"a", "b.com"⟩], Subject := "spam sale", MessageId := "mid1" } : Envelope)) ∈
        builtIdentitiesIMAP
          { Email := "me@x", IncludeKeyword := [], ExcludeKeyword := ["spam"],
            IncludeEmail := [], ExcludeEmail := [], CheckHistory := 1000,
            FolderMode := "all", IncludeFolders := [], ExcludeFolders := [] }
          [⟨"INBOX", 1, 1, [⟨1, some ⟨[⟨"a", "b.com"⟩], "spam sale", "mid1"⟩⟩]⟩] ∧
      "INBOX-1-mid1" ∉
        (checkNewEmails
          { Email := "me@x", IncludeKeyword := [], ExcludeKeyword := ["spam"],
            IncludeEmail := [], ExcludeEmail := [], CheckHistory := 1000,
            FolderMode := "all", IncludeFolders := [], ExcludeFolders := [] }
          ⟨[], 0, 0, []⟩
          (.ok [⟨"INBOX", 1, 1, [⟨1, some ⟨[⟨"a", "b.com"⟩], "spam sale", "mid1"⟩⟩]⟩])
          5).state.notifiedEmails) ∧
    (checkNewEmailsPOP3
        { Email := "me@x", IncludeKeyword := [], ExcludeKeyword := [],
          IncludeEmail := [], ExcludeEmail := [], CheckHistory := 1000,
          FolderMode := "all", IncludeFolders := [], ExcludeFolders := [] }
        (checkNewEmailsPOP3
          { Email := "me@x", IncludeKeyword := [], ExcludeKeyword := [],
            IncludeEmail := [], ExcludeEmail := [], CheckHistory := 1000,
            FolderMode := "all", IncludeFolders := [], ExcludeFolders := [] }
          ⟨[], 0, 0, []⟩ (.ok [⟨true, "hello", "a@b.com", "hi"⟩]) 5).state
        (.ok [⟨true, "hello", "a@b.com", "hi"⟩]) 9).fired = 1 := by
  refine ⟨⟨?_, ?_⟩, ?_⟩ <;> decide

/-- **C1** (amended): running a poll cycle twice against the same remote
snapshot fires zero additional notifications the second time, leaves the
notified-identifier set and the persisted history file unchanged, and every
identity built in the second cycle whose message the filter *accepts* is
already a member of the notified set (a filter-rejected message's identity is
rebuilt but never becomes a member) — for the IMAP executor unconditionally,
and for the POP3 executor provided every retrievable message's raw content
carries a `Message-ID` header (otherwise the identity embeds the wall clock
and the second cycle re-notifies, see the counterexample). -/
theorem c1_poll_cycle_idempotent
    (acc : AccountConfig) (st : AccountState) (remote : List MailboxData)
    (msgs : List POP3Message) (now₁ now₂ : Nat)
    (hmid : ∀ m ∈ msgs, m.retrOk = true → extractHeader m.body "Message-ID" ≠ "") :
    ((checkNewEmails acc (checkNewEmails acc st (.ok remote) now₁).state
        (.ok remote) now₂).fired = 0 ∧
      (checkNewEmails acc (checkNewEmails acc st (.ok remote) now₁).state
        (.ok remote) now₂).state.notifiedEmails =
        (checkNewEmails acc st (.ok remote) now₁).state.notifiedEmails ∧
      (checkNewEmails acc (checkNewEmails acc st (.ok remote) now₁).state
        (.ok remote) now₂).state.historyFile =
        (checkNewEmails acc st (.ok remote) now₁).state.historyFile ∧
      (∀ p ∈ builtIdentitiesIMAP acc remote, applyFilters acc p.2 = true →
        p.1 ∈ (checkNewEmails acc st (.ok remote) now₁).state.notifiedEmails)) ∧
    ((checkNewEmailsPOP3 acc (checkNewEmailsPOP3 acc st (.ok msgs) now₁).state
        (.ok msgs) now₂).fired = 0 ∧
      (checkNewEmailsPOP3 acc (checkNewEmailsPOP3 acc st (.ok msgs) now₁).state
        (.ok msgs) now₂).state.notifiedEmails =
        (checkNewEmailsPOP3 acc st (.ok msgs) now₁).state.notifiedEmails ∧
      (checkNewEmailsPOP3 acc (checkNewEmailsPOP3 acc st (.ok msgs) now₁).state
        (.ok msgs) now₂).state.historyFile =
        (checkNewEmailsPOP3 acc st (.ok msgs) now₁).state.historyFile ∧
      (∀ p ∈ builtPOP3 now₂ 1 msgs,
        applyFiltersPOP3 acc p.2.fromHeader p.2.subjectHeader = true →
        p.1 ∈ (checkNewEmailsPOP3 acc st (.ok msgs) now₁).state.notifiedEmails)) := by
  constructor
  · have hmem : ∀ p ∈ builtIMAPFolders remote (getFoldersToCheck acc remote),
        applyFilters acc p.2 = true →
        p.1 ∈ (checkIMAPFolders acc remote st.notifiedEmails 0 0
          (getFoldersToCheck acc remote)).1 :=
      fun p hp hf => built_checkIMAPFolders acc remote _ st.notifiedEmails 0 0 p hp hf
    have hnoop := noop_checkIMAPFolders acc remote (getFoldersToCheck acc remote)
      (checkIMAPFolders acc remote st.notifiedEmails 0 0 (getFoldersToCheck acc remote)).1
      0 0 hmem
    refine ⟨?_, ?_, ?_, hmem⟩
    · show (checkIMAPFolders acc remote
          (checkIMAPFolders acc remote st.notifiedEmails 0 0 (getFoldersToCheck acc remote)).1
          0 0 (getFoldersToCheck acc remote)).2.1 = 0
      exact hnoop.2
    · show (checkIMAPFolders acc remote
          (checkIMAPFolders acc remote st.notifiedEmails 0 0 (getFoldersToCheck acc remote)).1
          0 0 (getFoldersToCheck acc remote)).1 =
        (checkIMAPFolders acc remote st.notifiedEmails 0 0 (getFoldersToCheck acc remote)).1
      exact hnoop.1
    · show (if (checkIMAPFolders acc remote
            (checkIMAPFolders acc remote st.notifiedEmails 0 0 (getFoldersToCheck acc remote)).1
            0 0 (getFoldersToCheck acc remote)).2.1 > 0
          then (checkIMAPFolders acc remote
            (checkIMAPFolders acc remote st.notifiedEmails 0 0 (getFoldersToCheck acc remote)).1
            0 0 (getFoldersToCheck acc remote)).1
          else (checkNewEmails acc st (.ok remote) now₁).state.historyFile) =
        (checkNewEmails acc st (.ok remote) now₁).state.historyFile
      rw [hnoop.2]
      simp
  · have hmem1 : ∀ p ∈ builtPOP3 now₁ 1 msgs,
        applyFiltersPOP3 acc p.2.fromHeader p.2.subjectHeader = true →
        p.1 ∈ (processPOP3Messages acc st.notifiedEmails 0 now₁ 1 msgs).1 :=
      fun p hp hf => built_processPOP3Messages acc msgs st.notifiedEmails 0 now₁ 1 p hp hf
    have hmem2 : ∀ p ∈ builtPOP3 now₂ 1 msgs,
        applyFiltersPOP3 acc p.2.fromHeader p.2.subjectHeader = true →
        p.1 ∈ (processPOP3Messages acc st.notifiedEmails 0 now₁ 1 msgs).1 := by
      rw [builtPOP3_time_indep msgs hmid 1 now₂ now₁]
      exact hmem1
    have hnoop := noop_processPOP3Messages acc msgs
      (processPOP3Messages acc st.notifiedEmails 0 now₁ 1 msgs).1 0 now₂ 1 hmem2
    refine ⟨?_, ?_, ?_, hmem2⟩
    · show (processPOP3Messages acc
          (processPOP3Messages acc st.notifiedEmails 0 now₁ 1 msgs).1 0 now₂ 1 msgs).2 = 0
      rw [hnoop]
    · show (processPOP3Messages acc
          (processPOP3Messages acc st.notifiedEmails 0 now₁ 1 msgs).1 0 now₂ 1 msgs).1 =
        (processPOP3Messages acc st.notifiedEmails 0 now₁ 1 msgs).1
      rw [hnoop]
    · show (if (processPOP3Messages acc
            (processPOP3Messages acc st.notifiedEmails 0 now₁ 1 msgs).1 0 now₂ 1 msgs).2 > 0
          then (processPOP3Messages acc
            (processPOP3Messages acc st.notifiedEmails 0 now₁ 1 msgs).1 0 now₂ 1 msgs).1
          else (checkNewEmailsPOP3 acc st (.ok msgs) now₁).state.historyFile) =
        (checkNewEmailsPOP3 acc st (.ok msgs) now₁).state.historyFile
      rw [hnoop]
      simp

/-- Witness for C1 (amended): one IMAP mailbox with one accepted message and
one POP3 message carrying a `Message-ID` header; the second cycle of each
executor fires no notification. -/
theorem c1_witness :
    (checkNewEmails
      { Email := "me@x", IncludeKeyword := [], ExcludeKeyword := [],
        IncludeEmail := [], ExcludeEmail := [], CheckHistory := 1000,
        FolderMode := "all", IncludeFolders := [], ExcludeFolders := [] }
      (checkNewEmails
        { Email := "me@x", IncludeKeyword := [], ExcludeKeyword := [],
          IncludeEmail := [], ExcludeEmail := [], CheckHistory := 1000,
          FolderMode := "all", IncludeFolders := [], ExcludeFolders := [] }
        ⟨[], 0, 0, []⟩
        (.ok [⟨"INBOX", 1, 1, [⟨1, some ⟨[⟨"a", "b.com"⟩], "hello", "m1"⟩⟩]⟩]) 5).state
      (.ok [⟨"INBOX", 1, 1, [⟨1, some ⟨[⟨"a", "b.com"⟩], "hello", "m1"⟩⟩]⟩]) 9).fired = 0 ∧
    (checkNewEmailsPOP3
      { Email := "me@x", IncludeKeyword := [], ExcludeKeyword := [],
        IncludeEmail := [], ExcludeEmail := [], CheckHistory := 1000,
        FolderMode := "all", IncludeFolders := [], ExcludeFolders := [] }
      (checkNewEmailsPOP3
        { Email := "me@x", IncludeKeyword := [], ExcludeKeyword := [],
          IncludeEmail := [], ExcludeEmail := [], CheckHistory := 1000,
          FolderMode := "all", IncludeFolders := [], ExcludeFolders := [] }
        ⟨[], 0, 0, []⟩ (.ok [⟨true, "Message-ID: <1@x>", "a@b.com", "hi"⟩]) 5).state
      (.ok [⟨true, "Message-ID: <1@x>", "a@b.com", "hi"⟩]) 9).fired = 0 :=
  ⟨(c1_poll_cycle_idempotent _ ⟨[], 0, 0, []⟩
      [⟨"INBOX", 1, 1, [⟨1, some ⟨[⟨"a", "b.com"⟩], "hello", "m1"⟩⟩]⟩]
      [⟨true, "Message-ID: <1@x>", "a@b.com", "hi"⟩] 5 9 (by decide)).1.1,
    (c1_poll_cycle_idempotent _ ⟨[], 0, 0, []⟩
      [⟨"INBOX", 1, 1, [⟨1, some ⟨[⟨"a", "b.com"⟩], "hello", "m1"⟩⟩]⟩]
      [⟨true, "Message-ID: <1@x>", "a@b.com", "hi"⟩] 5 9 (by decide)).2.1⟩


end EmailNotifier
